import Mathlib

/-!
Verification of the Yoosee camera intercom client (Node.js sources:
`intercom.js`, the single-camera variant, and the multi-camera
`CameraClient` variant).  The definitions below are a shallow embedding of
the JavaScript source: byte buffers become `List Nat`, the per-camera
mutable object becomes the `Client` structure, `Date.now()` becomes an
explicit `now : Nat` parameter, and the `setImmediate` / `setTimeout`
rescheduling becomes an explicit `Sched` value returned by each drain
cycle.  JavaScript floating-point arithmetic in the throttle computation is
modelled with exact rationals; the concrete comparisons the claims exercise
are far from representation boundaries.
-/

/-- Constant `CHUNK_SIZE = 320` from the source. -/
def CHUNK_SIZE : Nat := 320

/-- Constant `FRAME_LEN = 332` from the source (320 data + 12 padding). -/
def FRAME_LEN : Nat := 332

/-- Constant `MAX_BUFFER_AHEAD_MS = 2000` from the source. -/
def MAX_BUFFER_AHEAD_MS : Nat := 2000

/-- Constant `SPEED_MULTIPLIER = 1` from the multi-camera source (the single-camera
variant uses 1.3). -/
def SPEED_MULTIPLIER : ℚ := 1

/-- The literal `50000` bound in `CameraClient.enqueue`. -/
def MAX_QUEUE_WHILE_DISCONNECTED : Nat := 50000

/-- An audio chunk: a byte buffer, modelled as a list of byte values. -/
abbrev Chunk := List Nat

/-- The mutable per-camera state of a `CameraClient` instance: its fields
`sampleRate`, `audioQueue`, `startTime` (0 is the unset sentinel),
`totalBytesSent`, `isThrottling`, `isConnected`, and the underlying
socket's `destroyed` flag. -/
structure Client where
  sampleRate : Nat
  audioQueue : List Chunk
  startTime : Nat
  totalBytesSent : Nat
  isThrottling : Bool
  isConnected : Bool
  destroyed : Bool
deriving DecidableEq

/-- What a drain cycle schedules next: nothing (`idle`), an immediate
re-invocation (`setImmediate`), or a delayed one (`setTimeout` with the
delay in milliseconds). -/
inductive Sched where
  | idle
  | immediate
  | timeout (ms : Nat)
deriving DecidableEq

/-- The frame built by `sendRtspFrame`: 4-byte header
(`0x24`, channel `0x02`, `FRAME_LEN` written little-endian by
`writeUInt16LE`), 12 zero padding bytes, then the payload. -/
def encodeFrame (chunk : Chunk) : List Nat :=
  [0x24, 0x02, FRAME_LEN % 256, FRAME_LEN / 256 % 256] ++ List.replicate 12 0 ++ chunk

/-- Method `CameraClient.sendRtspFrame`: if the socket is destroyed, do nothing;
otherwise write the encoded frame and add the chunk's length (only the
payload, not the 16 framing bytes) to `totalBytesSent`.  The second
component is the list of frames written to the socket. -/
def sendRtspFrame (c : Client) (chunk : Chunk) : Client × List (List Nat) :=
  if c.destroyed then (c, [])
  else ({c with totalBytesSent := c.totalBytesSent + chunk.length}, [encodeFrame chunk])

/-- One iteration of the burst loop: send a frame and accumulate it. -/
def sendStep (acc : Client × List (List Nat)) (ch : Chunk) : Client × List (List Nat) :=
  let r := sendRtspFrame acc.1 ch
  (r.1, acc.2 ++ r.2)

/-- The burst loop `for (let i = 0; i < burstPackets; i++) sendRtspFrame(shift())`,
applied to the list of chunks it sends. -/
def sendChunks (c : Client) (chunks : List Chunk) : Client × List (List Nat) :=
  chunks.foldl sendStep (c, [])

/-- Source line `const burstPackets = Math.floor(this.sampleRate * 2 / CHUNK_SIZE)`. -/
def burstPackets (sampleRate : Nat) : Nat := sampleRate * 2 / CHUNK_SIZE

/-- Source line `const bytesPerSecond = this.sampleRate * 2`. -/
def bytesPerSecond (sampleRate : Nat) : Nat := sampleRate * 2

/-- Source line `const audioTimeSentAdjusted = ((totalBytesSent / bytesPerSecond) * 1000) / SPEED_MULTIPLIER`. -/
def audioTimeSentAdjusted (c : Client) : ℚ :=
  (c.totalBytesSent : ℚ) / (bytesPerSecond c.sampleRate : ℚ) * 1000 / SPEED_MULTIPLIER

/-- The tail of `processQueue` after the cold-start section: the throttle
check, then `shift` one chunk and send it, with `sent` the frames already
written earlier in this invocation. -/
def steadyStep (now : Nat) (c : Client) (sent : List (List Nat)) :
    Client × List (List Nat) × Sched :=
  let timeElapsed := now - c.startTime
  if audioTimeSentAdjusted c > (timeElapsed : ℚ) + (MAX_BUFFER_AHEAD_MS : ℚ) then
    (c, sent, Sched.timeout 10)
  else
    match c.audioQueue with
    | [] => (c, sent, Sched.immediate)
    | ch :: rest =>
      let r := sendRtspFrame {c with audioQueue := rest} ch
      (r.1, sent ++ r.2, Sched.immediate)

/-- Method `CameraClient.processQueue`, one invocation: clear the queue if the
socket is destroyed; bail out if not connected; mark throttling; bail out
(unmarking) on an empty queue; on cold start (`startTime === 0`) either
wait for more data or burst `burstPackets` chunks and set `startTime`;
then fall through to the steady-state throttle-or-send step. -/
def processQueue (now : Nat) (c : Client) : Client × List (List Nat) × Sched :=
  if c.destroyed then ({c with audioQueue := []}, [], Sched.idle)
  else if c.isConnected = false then (c, [], Sched.idle)
  else
    let c1 : Client := {c with isThrottling := true}
    if c1.audioQueue.length = 0 then ({c1 with isThrottling := false}, [], Sched.idle)
    else if c1.startTime = 0 then
      let bp := burstPackets c1.sampleRate
      if c1.audioQueue.length > bp then
        let r := sendChunks
          {c1 with audioQueue := c1.audioQueue.drop bp, startTime := now}
          (c1.audioQueue.take bp)
        steadyStep now r.1 r.2
      else ({c1 with isThrottling := false}, [], Sched.idle)
    else steadyStep now c1 []

/-- Method `CameraClient.enqueue`: push a copy of the chunk; if not connected and
the queue now exceeds 50000, drop the oldest chunk; if connected and not
throttling, run a drain cycle synchronously. -/
def enqueue (now : Nat) (c : Client) (chunk : Chunk) : Client × List (List Nat) × Sched :=
  let c1 : Client := {c with audioQueue := c.audioQueue ++ [chunk]}
  let c2 : Client :=
    if c1.isConnected = false ∧ c1.audioQueue.length > MAX_QUEUE_WHILE_DISCONNECTED then
      {c1 with audioQueue := c1.audioQueue.tail}
    else c1
  if c2.isConnected = true ∧ c2.isThrottling = false then processQueue now c2
  else (c2, [], Sched.idle)

/-- The socket `timeout` handler: destroy the socket, mark disconnected,
and clear the queue. -/
def onTimeout (c : Client) : Client :=
  {c with destroyed := true, isConnected := false, audioQueue := []}

/-- The socket `error` handler: it only sets `isConnected = false`. -/
def onError (c : Client) : Client := {c with isConnected := false}

/-- The socket `close` handler: it only sets `isConnected = false`. -/
def onClose (c : Client) : Client := {c with isConnected := false}

/-- The acceptance test in the `data` handler:
`data.toString().includes('CSeq: 8')`. -/
def isHandshakeAccepted (text : String) : Bool :=
  decide (("CSeq: 8").data <:+: text.data)

/-- The socket `data` handler: on the acceptance substring, mark connected
and, if chunks are already queued, run a drain cycle. -/
def onData (now : Nat) (c : Client) (text : String) : Client × List (List Nat) × Sched :=
  if isHandshakeAccepted text then
    let c1 : Client := {c with isConnected := true}
    if c1.audioQueue.length > 0 then processQueue now c1 else (c1, [], Sched.idle)
  else (c, [], Sched.idle)

/-- The open command of the multi-camera `CameraClient.connect`. -/
def openCmd (ip : String) : String :=
  ("USER_CMD_SET rtsp://" ++ ip ++ "/onvif1 RTSP/1.0\r\n") ++
    (("CSeq: 8\r\n") ++
      (("Content-length: strlen(Content-type)\r\n") ++
        ("Content-type: AudioCtlCmd:OPEN\r\n\r\n")))

/-- The open command of the deprecated single-camera `intercom.js`
connect callback (note the `/onvif0` path). -/
def openCmdSingle (ip : String) : String :=
  ("USER_CMD_SET rtsp://" ++ ip ++ "/onvif0 RTSP/1.0\r\n") ++
    (("CSeq: 8\r\n") ++
      (("Content-length: strlen(Content-type)\r\n") ++
        ("Content-type: AudioCtlCmd:OPEN\r\n\r\n")))

/-- The close command of `CameraClient.stop`. -/
def closeCmd (ip : String) : String :=
  ("USER_CMD_SET rtsp://" ++ ip ++ "/onvif1 RTSP/1.0\r\n") ++
    (("CSeq: 10\r\n") ++
      (("Content-length: strlen(Content-type)\r\n") ++
        ("Content-type: AudioCtlCmd:CLOSE\r\n\r\n")))

/-- The slicing loop of the ffmpeg stdout handler: cut the buffer into
`CHUNK_SIZE` windows and keep only the full ones. -/
def fullSlices (data : List Nat) : List Chunk :=
  if h : CHUNK_SIZE ≤ data.length then
    data.take CHUNK_SIZE :: fullSlices (data.drop CHUNK_SIZE)
  else []
termination_by data.length
decreasing_by
  simp only [List.length_drop]
  have h320 : (0:Nat) < CHUNK_SIZE := by decide
  omega

/-- The multi-camera ffmpeg stdout handler: for each full slice, enqueue it
into every client (slice-major order, as in the source loop). -/
def fanout (now : Nat) (clients : List Client) (data : List Nat) : List Client :=
  (fullSlices data).foldl
    (fun cs sl => cs.map (fun c => (enqueue now c sl).1)) clients

/-- Feeding a list of chunks to one session, one `enqueue` call per chunk,
collecting every frame written along the way. -/
def feed (now : Nat) : Client → List Chunk → Client × List (List Nat)
  | c, [] => (c, [])
  | c, ch :: rest =>
    let r := enqueue now c ch
    let f := feed now r.1 rest
    (f.1, r.2.1 ++ f.2)

/-- Running the pending `setImmediate` continuations of the Pacer at a
frozen clock: repeatedly invoke `processQueue` while it reschedules itself
immediately, with enough fuel. -/
def drainLoop : Nat → Nat → Client → Client × List (List Nat)
  | 0, _, c => (c, [])
  | Nat.succ fuel, now, c =>
    let r := processQueue now c
    match r.2.2 with
    | Sched.immediate =>
      let r2 := drainLoop fuel now r.1
      (r2.1, r.2.1 ++ r2.2)
    | _ => (r.1, r.2.1)

/-- The bounded push realized by `enqueue` on a disconnected session:
append, and drop the oldest element when the bound is exceeded. -/
def boundPush (q : List Chunk) (ch : Chunk) : List Chunk :=
  if (q ++ [ch]).length > MAX_QUEUE_WHILE_DISCONNECTED then (q ++ [ch]).tail
  else q ++ [ch]

-- ---------------------------------------------------------------------
-- Basic lemmas about the frame codec
-- ---------------------------------------------------------------------

theorem encodeFrame_eq (chunk : Chunk) :
    encodeFrame chunk =
      36 :: 2 :: 76 :: 1 :: 0 :: 0 :: 0 :: 0 :: 0 :: 0 :: 0 :: 0 :: 0 :: 0 :: 0 :: 0 :: chunk := rfl

theorem encodeFrame_length (chunk : Chunk) :
    (encodeFrame chunk).length = 16 + chunk.length := by
  simp [encodeFrame_eq]
  omega

/-- C2: for every 320-byte payload, the frame encoder produces exactly
4 + 12 + 320 = 336 bytes; byte 0 is 0x24, byte 1 is channel 0x02, bytes
2–3 are the 16-bit value CHUNK_SIZE + 12 = 332 little-endian, bytes 4–15
are twelve zero bytes, and bytes 16 onward are the payload unchanged. -/
theorem claim2_frame (chunk : Chunk) (h : chunk.length = CHUNK_SIZE) :
    (encodeFrame chunk).length = 336 ∧
    (encodeFrame chunk).getD 0 0 = 0x24 ∧
    (encodeFrame chunk).getD 1 0 = 0x02 ∧
    (encodeFrame chunk).getD 2 0 + 256 * (encodeFrame chunk).getD 3 0 = CHUNK_SIZE + 12 ∧
    ((encodeFrame chunk).drop 4).take 12 = List.replicate 12 0 ∧
    (encodeFrame chunk).drop 16 = chunk := by
  have hl : chunk.length = 320 := h
  refine ⟨?_, ?_, ?_, ?_, ?_, ?_⟩
  · rw [encodeFrame_length, hl]
  · rfl
  · rfl
  · rfl
  · rfl
  · rfl

/-- C2 witness at the all-zero 320-byte payload. -/
theorem claim2_witness :
    (encodeFrame (List.replicate 320 0)).length = 336 ∧
    (encodeFrame (List.replicate 320 0)).getD 0 0 = 0x24 ∧
    (encodeFrame (List.replicate 320 0)).getD 1 0 = 0x02 ∧
    (encodeFrame (List.replicate 320 0)).getD 2 0 +
      256 * (encodeFrame (List.replicate 320 0)).getD 3 0 = CHUNK_SIZE + 12 ∧
    ((encodeFrame (List.replicate 320 0)).drop 4).take 12 = List.replicate 12 0 ∧
    (encodeFrame (List.replicate 320 0)).drop 16 = List.replicate 320 0 :=
  claim2_frame (List.replicate 320 0) (by rw [List.length_replicate]; rfl)

-- ---------------------------------------------------------------------
-- Branch lemmas for the drain cycle
-- ---------------------------------------------------------------------

theorem sendChunks_aux (chunks : List Chunk) (c : Client) (acc : List (List Nat))
    (hd : c.destroyed = false) :
    chunks.foldl sendStep (c, acc) =
      ({c with totalBytesSent := c.totalBytesSent + (chunks.map List.length).sum},
        acc ++ chunks.map encodeFrame) := by
  induction chunks generalizing c acc with
  | nil =>
    obtain ⟨sr, q, st, tb, thr, conn, dest⟩ := c
    simp
  | cons ch rest ih =>
    obtain ⟨sr, q, st, tb, thr, conn, dest⟩ := c
    simp only at hd
    subst hd
    rw [List.foldl_cons]
    have hstep : sendStep (Client.mk sr q st tb thr conn false, acc) ch =
        (Client.mk sr q st (tb + ch.length) thr conn false, acc ++ [encodeFrame ch]) := by
      simp [sendStep, sendRtspFrame]
    rw [hstep, ih _ _ rfl]
    simp [List.append_assoc, Nat.add_assoc]

theorem sendChunks_spec (chunks : List Chunk) (c : Client) (hd : c.destroyed = false) :
    sendChunks c chunks =
      ({c with totalBytesSent := c.totalBytesSent + (chunks.map List.length).sum},
        chunks.map encodeFrame) := by
  rw [sendChunks, sendChunks_aux chunks c [] hd]
  simp

theorem processQueue_destroyed (now : Nat) (c : Client) (h : c.destroyed = true) :
    processQueue now c = ({c with audioQueue := []}, [], Sched.idle) := by
  simp [processQueue, h]

theorem processQueue_notConnected (now : Nat) (c : Client) (hd : c.destroyed = false)
    (hc : c.isConnected = false) :
    processQueue now c = (c, [], Sched.idle) := by
  simp [processQueue, hd, hc]

theorem processQueue_emptyQueue (now : Nat) (c : Client) (hd : c.destroyed = false)
    (hc : c.isConnected = true) (hq : c.audioQueue = []) :
    processQueue now c = ({c with isThrottling := false}, [], Sched.idle) := by
  obtain ⟨sr, q, st, tb, thr, conn, dest⟩ := c
  simp only at hd hc hq
  subst hd hc hq
  simp [processQueue]

theorem processQueue_cold_wait (now : Nat) (c : Client) (hd : c.destroyed = false)
    (hc : c.isConnected = true) (hq : c.audioQueue ≠ [])
    (hs : c.startTime = 0) (hlen : c.audioQueue.length ≤ burstPackets c.sampleRate) :
    processQueue now c = ({c with isThrottling := false}, [], Sched.idle) := by
  obtain ⟨sr, q, st, tb, thr, conn, dest⟩ := c
  simp only at hd hc hq hs hlen
  subst hd hc hs
  have h1 : ¬(q.length = 0) := by
    simpa [List.length_eq_zero] using hq
  have h2 : ¬(q.length > burstPackets sr) := by omega
  simp [processQueue, h1, h2]

theorem processQueue_burst (now : Nat) (c : Client) (hd : c.destroyed = false)
    (hc : c.isConnected = true) (hs : c.startTime = 0)
    (hlen : burstPackets c.sampleRate < c.audioQueue.length) :
    processQueue now c =
      steadyStep now
        {c with isThrottling := true,
                audioQueue := c.audioQueue.drop (burstPackets c.sampleRate),
                startTime := now,
                totalBytesSent := c.totalBytesSent +
                  ((c.audioQueue.take (burstPackets c.sampleRate)).map List.length).sum}
        ((c.audioQueue.take (burstPackets c.sampleRate)).map encodeFrame) := by
  obtain ⟨sr, q, st, tb, thr, conn, dest⟩ := c
  simp only at hd hc hs hlen
  subst hd hc hs
  have h1 : ¬(q.length = 0) := by omega
  simp [processQueue, h1, hlen, sendChunks_spec]

theorem processQueue_steady (now : Nat) (c : Client) (hd : c.destroyed = false)
    (hc : c.isConnected = true) (hq : c.audioQueue ≠ []) (hs : c.startTime ≠ 0) :
    processQueue now c = steadyStep now {c with isThrottling := true} [] := by
  obtain ⟨sr, q, st, tb, thr, conn, dest⟩ := c
  simp only at hd hc hq hs
  subst hd hc
  have h1 : ¬(q.length = 0) := by
    simpa [List.length_eq_zero] using hq
  simp [processQueue, h1, hs]

theorem steadyStep_throttle (now : Nat) (c : Client) (sent : List (List Nat))
    (h : audioTimeSentAdjusted c > ((now - c.startTime : Nat) : ℚ) + (MAX_BUFFER_AHEAD_MS : ℚ)) :
    steadyStep now c sent = (c, sent, Sched.timeout 10) := by
  simp [steadyStep, h]

theorem steadyStep_send (now : Nat) (c : Client) (sent : List (List Nat))
    (ch : Chunk) (rest : List Chunk)
    (h : ¬(audioTimeSentAdjusted c > ((now - c.startTime : Nat) : ℚ) + (MAX_BUFFER_AHEAD_MS : ℚ)))
    (hq : c.audioQueue = ch :: rest) (hd : c.destroyed = false) :
    steadyStep now c sent =
      ({c with audioQueue := rest, totalBytesSent := c.totalBytesSent + ch.length},
        sent ++ [encodeFrame ch], Sched.immediate) := by
  obtain ⟨sr, q, st, tb, thr, conn, dest⟩ := c
  simp only at h hq hd
  subst hd hq
  simp [steadyStep, h, sendRtspFrame]

theorem steadyStep_emptyQ (now : Nat) (c : Client) (sent : List (List Nat))
    (h : ¬(audioTimeSentAdjusted c > ((now - c.startTime : Nat) : ℚ) + (MAX_BUFFER_AHEAD_MS : ℚ)))
    (hq : c.audioQueue = []) :
    steadyStep now c sent = (c, sent, Sched.immediate) := by
  obtain ⟨sr, q, st, tb, thr, conn, dest⟩ := c
  simp only at h hq
  subst hq
  simp [steadyStep, h]

theorem steadyStep_isConnected (now : Nat) (c : Client) (sent : List (List Nat)) :
    ((steadyStep now c sent).1).isConnected = c.isConnected := by
  obtain ⟨sr, q, st, tb, thr, conn, dest⟩ := c
  simp only [steadyStep]
  split
  · rfl
  · cases q with
    | nil => rfl
    | cons ch rest =>
      cases dest
      · simp [sendRtspFrame]
      · simp [sendRtspFrame]

theorem processQueue_isConnected (now : Nat) (c : Client) (hc : c.isConnected = true) :
    ((processQueue now c).1).isConnected = true := by
  by_cases hd : c.destroyed = true
  · rw [processQueue_destroyed now c hd]
    exact hc
  · have hd' : c.destroyed = false := by
      simpa using hd
    by_cases hq : c.audioQueue = []
    · rw [processQueue_emptyQueue now c hd' hc hq]
      exact hc
    · by_cases hs : c.startTime = 0
      · by_cases hlen : c.audioQueue.length ≤ burstPackets c.sampleRate
        · rw [processQueue_cold_wait now c hd' hc hq hs hlen]
          exact hc
        · have hlen' : burstPackets c.sampleRate < c.audioQueue.length := by omega
          rw [processQueue_burst now c hd' hc hs hlen', steadyStep_isConnected]
          exact hc
      · rw [processQueue_steady now c hd' hc hq hs, steadyStep_isConnected]
        exact hc

theorem enqueue_disconnected (now : Nat) (c : Client) (ch : Chunk)
    (hc : c.isConnected = false) :
    enqueue now c ch = ({c with audioQueue := boundPush c.audioQueue ch}, [], Sched.idle) := by
  obtain ⟨sr, q, st, tb, thr, conn, dest⟩ := c
  simp only at hc
  subst hc
  by_cases h : MAX_QUEUE_WHILE_DISCONNECTED < q.length + 1
  · simp [enqueue, boundPush, h]
  · simp [enqueue, boundPush, h]

theorem enqueue_throttling (now : Nat) (c : Client) (ch : Chunk)
    (hc : c.isConnected = true) (ht : c.isThrottling = true) :
    enqueue now c ch = ({c with audioQueue := c.audioQueue ++ [ch]}, [], Sched.idle) := by
  obtain ⟨sr, q, st, tb, thr, conn, dest⟩ := c
  simp only at hc ht
  subst hc ht
  simp [enqueue]

theorem enqueue_connected_idle (now : Nat) (c : Client) (ch : Chunk)
    (hc : c.isConnected = true) (ht : c.isThrottling = false) :
    enqueue now c ch = processQueue now {c with audioQueue := c.audioQueue ++ [ch]} := by
  obtain ⟨sr, q, st, tb, thr, conn, dest⟩ := c
  simp only at hc ht
  subst hc ht
  simp [enqueue]

theorem onData_isConnected (now : Nat) (c : Client) (text : String)
    (hc : c.isConnected = false) :
    ((onData now c text).1).isConnected = isHandshakeAccepted text := by
  unfold onData
  by_cases ha : isHandshakeAccepted text = true
  · rw [if_pos ha, ha]
    by_cases hq : ({c with isConnected := true} : Client).audioQueue.length > 0
    · rw [if_pos hq]
      exact processQueue_isConnected now _ rfl
    · rw [if_neg hq]
  · have ha' : isHandshakeAccepted text = false := by
      simpa using ha
    rw [if_neg ha, ha']
    exact hc

-- ---------------------------------------------------------------------
-- C4: the steady-state throttle
-- ---------------------------------------------------------------------

/-- C4: in a steady-state drain cycle (after the burst), whenever
`audioTimeSentAdjusted` exceeds the elapsed wall time plus
`MAX_BUFFER_AHEAD_MS`, the cycle dequeues nothing, writes nothing,
schedules a 10 ms re-evaluation, and leaves the queue and
`totalBytesSent` untouched (only the `isThrottling` flag is set). -/
theorem claim4_throttle (now : Nat) (c : Client) (hd : c.destroyed = false)
    (hc : c.isConnected = true) (hq : c.audioQueue ≠ []) (hs : c.startTime ≠ 0)
    (h : audioTimeSentAdjusted c >
      ((now - c.startTime : Nat) : ℚ) + (MAX_BUFFER_AHEAD_MS : ℚ)) :
    processQueue now c = ({c with isThrottling := true}, [], Sched.timeout 10) := by
  rw [processQueue_steady now c hd hc hq hs]
  exact steadyStep_throttle now _ [] h

/-- Concrete session for the C4 witness: sample rate 8000, 33600 payload
bytes already sent (2100 ms of audio), zero elapsed wall time. -/
def c4wit : Client := Client.mk 8000 [List.replicate 320 0] 5 33600 false true false

/-- C4 witness: 2100 ms of audio sent at 0 ms elapsed triggers the wait. -/
theorem claim4_witness :
    processQueue 5 c4wit = ({c4wit with isThrottling := true}, [], Sched.timeout 10) :=
  claim4_throttle 5 c4wit rfl rfl (List.cons_ne_nil _ _) (by decide)
    (by norm_num [c4wit, audioTimeSentAdjusted, bytesPerSecond, SPEED_MULTIPLIER,
      MAX_BUFFER_AHEAD_MS])

-- ---------------------------------------------------------------------
-- C8: handshake acceptance
-- ---------------------------------------------------------------------

/-- C8: a not-yet-connected session becomes connected on an inbound text
if and only if the text contains the substring `CSeq: 8`; a text carrying
only the closing `CSeq: 10` is not treated as acceptance. -/
theorem claim8_handshake (now : Nat) (c : Client) (text : String)
    (hc : c.isConnected = false) :
    (((onData now c text).1).isConnected = true ↔ ("CSeq: 8").data <:+: text.data) ∧
    isHandshakeAccepted ("RTSP/1.0 200 OK\r\nCSeq: 10\r\nContent-type: AudioCtlCmd:CLOSE\r\n\r\n") = false := by
  constructor
  · rw [onData_isConnected now c text hc, isHandshakeAccepted]
    exact decide_eq_true_iff
  · decide

/-- Concrete disconnected session for the C8 witness. -/
def c8wit : Client := Client.mk 8000 [] 0 0 false false false

/-- C8 witness at a disconnected session and an accepting inbound text. -/
theorem claim8_witness :
    (((onData 3 c8wit ("RTSP/1.0 200 OK\r\nCSeq: 8\r\n\r\n")).1).isConnected = true ↔
      ("CSeq: 8").data <:+: ("RTSP/1.0 200 OK\r\nCSeq: 8\r\n\r\n").data) ∧
    isHandshakeAccepted ("RTSP/1.0 200 OK\r\nCSeq: 10\r\nContent-type: AudioCtlCmd:CLOSE\r\n\r\n") = false :=
  claim8_handshake 3 c8wit ("RTSP/1.0 200 OK\r\nCSeq: 8\r\n\r\n") rfl

-- ---------------------------------------------------------------------
-- C6: behaviour after a socket error/close event
-- ---------------------------------------------------------------------

/-- Concrete streaming session with one queued chunk, for refuting C6. -/
def c6cex : Client := Client.mk 8000 [[1]] 0 0 false true false

/-- C6 counterexample: after the `error` handler runs, the queue is not
cleared, and a subsequent enqueue appends (the queue grows), so enqueue is
neither a no-op nor a silent drop. -/
theorem claim6_cex :
    (onError c6cex).audioQueue ≠ [] ∧
    ((enqueue 0 (onError c6cex) ([2])).1).audioQueue = [[1], [2]] := by
  constructor
  · decide
  · rfl

/-- C6 as amended: the socket `error`/`close` handlers only clear
`isConnected`; they leave the queue in place, and subsequent enqueues
still append (subject to the 50000-chunk disconnected bound) without
writing anything.  The queue is cleared only by the connect-timeout
handler or by a drain cycle that runs after the socket was destroyed. -/
theorem claim6_amended (now : Nat) (c : Client) (ch : Chunk) :
    (onError c).isConnected = false ∧
    (onClose c).isConnected = false ∧
    (onError c).audioQueue = c.audioQueue ∧
    (onClose c).audioQueue = c.audioQueue ∧
    ((enqueue now (onError c) ch).1).audioQueue = boundPush c.audioQueue ch ∧
    (enqueue now (onError c) ch).2.1 = [] ∧
    (onTimeout c).audioQueue = [] ∧
    ((processQueue now {c with destroyed := true}).1).audioQueue = [] := by
  refine ⟨rfl, rfl, rfl, rfl, ?_, ?_, rfl, ?_⟩
  · rw [enqueue_disconnected now (onError c) ch rfl]
    rfl
  · rw [enqueue_disconnected now (onError c) ch rfl]
  · rw [processQueue_destroyed now _ rfl]

-- ---------------------------------------------------------------------
-- C7: the open command
-- ---------------------------------------------------------------------

/-- C7 counterexample: the deprecated single-camera client's open command
does not begin with the `/onvif1` request line the claim states (its
request line uses `/onvif0`). -/
theorem claim7_cex :
    ¬ (("USER_CMD_SET rtsp://192.168.1.100/onvif1 RTSP/1.0\r\n").data <+:
        (openCmdSingle ("192.168.1.100")).data) := by
  decide

/-- C7 as amended: the multi-camera client's open command starts with the
`USER_CMD_SET rtsp://<address>/onvif1 RTSP/1.0` request line terminated by
CRLF, contains the literal `Content-length: strlen(Content-type)` (not a
computed integer) and `Content-type: AudioCtlCmd:OPEN`, and ends with the
blank-line terminator; the deprecated single-camera variant instead opens
with a `/onvif0` request line. -/
theorem claim7_amended (ip : String) :
    (("USER_CMD_SET rtsp://" ++ ip ++ "/onvif1 RTSP/1.0\r\n").data <+: (openCmd ip).data) ∧
    (("Content-length: strlen(Content-type)").data <:+: (openCmd ip).data) ∧
    (("Content-type: AudioCtlCmd:OPEN").data <:+: (openCmd ip).data) ∧
    (("\r\n\r\n").data <:+ (openCmd ip).data) ∧
    (("USER_CMD_SET rtsp://" ++ ip ++ "/onvif0 RTSP/1.0\r\n").data <+: (openCmdSingle ip).data) := by
  refine ⟨?_, ?_, ?_, ?_, ?_⟩
  · rw [openCmd, String.data_append]
    exact List.prefix_append _ _
  · rw [openCmd, String.data_append]
    have h1 : ("Content-length: strlen(Content-type)").data <:+:
        (("CSeq: 8\r\n") ++
          (("Content-length: strlen(Content-type)\r\n") ++
            ("Content-type: AudioCtlCmd:OPEN\r\n\r\n"))).data := by
      decide
    exact h1.trans (List.suffix_append _ _).isInfix
  · rw [openCmd, String.data_append]
    have h1 : ("Content-type: AudioCtlCmd:OPEN").data <:+:
        (("CSeq: 8\r\n") ++
          (("Content-length: strlen(Content-type)\r\n") ++
            ("Content-type: AudioCtlCmd:OPEN\r\n\r\n"))).data := by
      decide
    exact h1.trans (List.suffix_append _ _).isInfix
  · rw [openCmd, String.data_append]
    have h1 : ("\r\n\r\n").data <:+
        (("CSeq: 8\r\n") ++
          (("Content-length: strlen(Content-type)\r\n") ++
            ("Content-type: AudioCtlCmd:OPEN\r\n\r\n"))).data := by
      decide
    exact h1.trans (List.suffix_append _ _)
  · rw [openCmdSingle, String.data_append]
    exact List.prefix_append _ _

-- ---------------------------------------------------------------------
-- C5: the disconnected-queue bound
-- ---------------------------------------------------------------------

theorem boundPush_length_le (q : List Chunk) (ch : Chunk)
    (h : q.length ≤ MAX_QUEUE_WHILE_DISCONNECTED) :
    (boundPush q ch).length ≤ MAX_QUEUE_WHILE_DISCONNECTED := by
  by_cases h2 : (q ++ [ch]).length > MAX_QUEUE_WHILE_DISCONNECTED
  · rw [boundPush, if_pos h2]
    simpa [List.length_tail] using h
  · rw [boundPush, if_neg h2]
    omega

theorem foldl_boundPush_le (l : List Chunk) : ∀ q : List Chunk,
    q.length ≤ MAX_QUEUE_WHILE_DISCONNECTED →
    (l.foldl boundPush q).length ≤ MAX_QUEUE_WHILE_DISCONNECTED := by
  induction l with
  | nil =>
    intro q h
    exact h
  | cons ch rest ih =>
    intro q h
    rw [List.foldl_cons]
    exact ih _ (boundPush_length_le q ch h)

theorem foldl_boundPush_no_drop (l : List Chunk) : ∀ q : List Chunk,
    q.length + l.length ≤ MAX_QUEUE_WHILE_DISCONNECTED →
    l.foldl boundPush q = q ++ l := by
  induction l with
  | nil =>
    intro q h
    simp
  | cons ch rest ih =>
    intro q h
    simp only [List.length_cons] at h
    have hlen : ¬((q ++ [ch]).length > MAX_QUEUE_WHILE_DISCONNECTED) := by
      simp only [List.length_append, List.length_cons, List.length_nil]
      omega
    rw [List.foldl_cons, boundPush, if_neg hlen,
      ih (q ++ [ch]) (by simp only [List.length_append, List.length_cons, List.length_nil]; omega)]
    simp

theorem foldl_boundPush_full (m : List Chunk)
    (hm : m.length = MAX_QUEUE_WHILE_DISCONNECTED + 1) :
    m.foldl boundPush [] = m.drop 1 := by
  have hsplit : m = m.take MAX_QUEUE_WHILE_DISCONNECTED ++ m.drop MAX_QUEUE_WHILE_DISCONNECTED :=
    (List.take_append_drop MAX_QUEUE_WHILE_DISCONNECTED m).symm
  have htake : (m.take MAX_QUEUE_WHILE_DISCONNECTED).length = MAX_QUEUE_WHILE_DISCONNECTED := by
    rw [List.length_take]
    omega
  obtain ⟨x, hx⟩ : ∃ x, m.drop MAX_QUEUE_WHILE_DISCONNECTED = [x] := by
    apply List.length_eq_one.mp
    rw [List.length_drop]
    omega
  conv_lhs => rw [hsplit]
  rw [List.foldl_append,
    foldl_boundPush_no_drop _ [] (by simp [htake]), hx,
    List.foldl_cons, List.foldl_nil]
  simp only [List.nil_append]
  rw [boundPush, if_pos (by simp only [List.length_append, List.length_cons, List.length_nil, htake]; omega)]
  rw [← List.drop_one,
    List.drop_append_of_le_length (by rw [htake]; exact Nat.one_le_iff_ne_zero.mpr (by decide))]
  conv_rhs => rw [hsplit]
  rw [List.drop_append_of_le_length (by rw [htake]; exact Nat.one_le_iff_ne_zero.mpr (by decide)), hx]

theorem feed_disconnected (now : Nat) (l : List Chunk) : ∀ (c : Client),
    c.isConnected = false →
    feed now c l = ({c with audioQueue := l.foldl boundPush c.audioQueue}, []) := by
  induction l with
  | nil =>
    intro c hc
    rfl
  | cons ch rest ih =>
    intro c hc
    simp only [feed]
    rw [enqueue_disconnected now c ch hc]
    rw [ih {c with audioQueue := boundPush c.audioQueue ch} hc]
    simp

/-- C5: a not-yet-connected session's queue never exceeds the 50000-chunk
bound under any sequence of enqueues; enqueuing 50001 chunks onto an empty
disconnected queue leaves exactly 50000 chunks, namely the 50000
most-recently-enqueued ones (the oldest chunk was dropped). -/
theorem claim5_bound (now : Nat) (c c0 : Client) (l m : List Chunk)
    (hc : c.isConnected = false)
    (hq : c.audioQueue.length ≤ MAX_QUEUE_WHILE_DISCONNECTED)
    (hc0 : c0.isConnected = false)
    (hq0 : c0.audioQueue = [])
    (hm : m.length = MAX_QUEUE_WHILE_DISCONNECTED + 1) :
    ((feed now c l).1).audioQueue.length ≤ MAX_QUEUE_WHILE_DISCONNECTED ∧
    ((feed now c0 m).1).audioQueue = m.drop 1 ∧
    ((feed now c0 m).1).audioQueue.length = MAX_QUEUE_WHILE_DISCONNECTED := by
  have h2 := feed_disconnected now m c0 hc0
  refine ⟨?_, ?_, ?_⟩
  · rw [feed_disconnected now l c hc]
    exact foldl_boundPush_le l _ hq
  · rw [h2]
    show m.foldl boundPush c0.audioQueue = m.drop 1
    rw [hq0]
    exact foldl_boundPush_full m hm
  · rw [h2]
    show (m.foldl boundPush c0.audioQueue).length = MAX_QUEUE_WHILE_DISCONNECTED
    rw [hq0, foldl_boundPush_full m hm, List.length_drop, hm]
    omega

/-- Concrete disconnected session for the C5 witness. -/
def c5wit : Client := Client.mk 8000 [] 0 0 false false false

/-- C5 witness: 50001 singleton chunks fed to an empty disconnected
session. -/
theorem claim5_witness :
    ((feed 0 c5wit [[7]]).1).audioQueue.length ≤ MAX_QUEUE_WHILE_DISCONNECTED ∧
    ((feed 0 c5wit ((List.range 50001).map (fun i => [i]))).1).audioQueue =
      ((List.range 50001).map (fun i => [i])).drop 1 ∧
    ((feed 0 c5wit ((List.range 50001).map (fun i => [i]))).1).audioQueue.length =
      MAX_QUEUE_WHILE_DISCONNECTED :=
  claim5_bound 0 c5wit c5wit [[7]] ((List.range 50001).map (fun i => [i])) rfl
    (by decide) rfl rfl (by rw [List.length_map, List.length_range]; rfl)

-- ---------------------------------------------------------------------
-- C9: fan-out of transcoder output
-- ---------------------------------------------------------------------

theorem fullSlices_of_le (data : List Nat) (h : CHUNK_SIZE ≤ data.length) :
    fullSlices data = data.take CHUNK_SIZE :: fullSlices (data.drop CHUNK_SIZE) := by
  rw [fullSlices]
  rw [dif_pos h]

theorem fullSlices_of_lt (data : List Nat) (h : data.length < CHUNK_SIZE) :
    fullSlices data = [] := by
  rw [fullSlices]
  rw [dif_neg (by omega)]

theorem fullSlices_640 (data : List Nat) (h : data.length = 640) :
    fullSlices data = [data.take 320, data.drop 320] := by
  have h1 : CHUNK_SIZE ≤ data.length := by
    rw [h]
    decide
  have h2 : CHUNK_SIZE ≤ (data.drop CHUNK_SIZE).length := by
    rw [List.length_drop, h]
    decide
  have h3 : ((data.drop CHUNK_SIZE).drop CHUNK_SIZE).length < CHUNK_SIZE := by
    rw [List.length_drop, List.length_drop, h]
    decide
  have h4 : (data.drop CHUNK_SIZE).take CHUNK_SIZE = data.drop CHUNK_SIZE :=
    List.take_of_length_le (by rw [List.length_drop, h]; decide)
  rw [fullSlices_of_le data h1, fullSlices_of_le _ h2, fullSlices_of_lt _ h3, h4]
  rfl

theorem fanout_map (now : Nat) (sls : List Chunk) : ∀ cs : List Client,
    sls.foldl (fun cs sl => cs.map (fun c => (enqueue now c sl).1)) cs =
      cs.map (fun c => sls.foldl (fun a sl => (enqueue now a sl).1) c) := by
  induction sls with
  | nil =>
    intro cs
    simp
  | cons sl rest ih =>
    intro cs
    rw [List.foldl_cons, ih, List.map_map]
    rfl

theorem fanout_spec (now : Nat) (clients : List Client) (data : List Nat) :
    fanout now clients data =
      clients.map (fun c => (fullSlices data).foldl (fun a sl => (enqueue now a sl).1) c) := by
  rw [fanout]
  exact fanout_map now (fullSlices data) clients

theorem feed_fst (now : Nat) (l : List Chunk) : ∀ c : Client,
    (feed now c l).1 = l.foldl (fun a ch => (enqueue now a ch).1) c := by
  induction l with
  | nil =>
    intro c
    rfl
  | cons ch rest ih =>
    intro c
    simp only [feed, List.foldl_cons]
    exact ih _

/-- C9: a 640-byte transcoder read is sliced into exactly two 320-byte
chunks (any shorter remainder would be discarded); the stdout handler
updates every session independently, passing the very same two chunks to
each session's `enqueue` whatever that session's state is; and a session
that is not connected (with room under the disconnected bound) ends up
with exactly those two chunks appended to its queue. -/
theorem claim9_fanout (now : Nat) (data : List Nat) (cs : List Client) (c : Client)
    (hdata : data.length = 640) (hc : c.isConnected = false)
    (hq : c.audioQueue.length + 2 ≤ MAX_QUEUE_WHILE_DISCONNECTED) :
    fullSlices data = [data.take 320, data.drop 320] ∧
    fanout now cs data =
      cs.map (fun x => (fullSlices data).foldl (fun a sl => (enqueue now a sl).1) x) ∧
    ((fullSlices data).foldl (fun a sl => (enqueue now a sl).1) c).audioQueue =
      c.audioQueue ++ [data.take 320, data.drop 320] := by
  refine ⟨fullSlices_640 data hdata, fanout_spec now cs data, ?_⟩
  rw [fullSlices_640 data hdata, ← feed_fst, feed_disconnected now _ c hc]
  show [data.take 320, data.drop 320].foldl boundPush c.audioQueue =
    c.audioQueue ++ [data.take 320, data.drop 320]
  exact foldl_boundPush_no_drop _ _ (by simpa using hq)

/-- Concrete disconnected session for the C9 witness. -/
def c9wit : Client := Client.mk 16000 [] 0 0 false false false

/-- C9 witness on a concrete 640-byte buffer and two sessions. -/
theorem claim9_witness :
    fullSlices (List.range 640) = [(List.range 640).take 320, (List.range 640).drop 320] ∧
    fanout 0 [c9wit, c9wit] (List.range 640) =
      [c9wit, c9wit].map
        (fun x => (fullSlices (List.range 640)).foldl (fun a sl => (enqueue 0 a sl).1) x) ∧
    ((fullSlices (List.range 640)).foldl (fun a sl => (enqueue 0 a sl).1) c9wit).audioQueue =
      c9wit.audioQueue ++ [(List.range 640).take 320, (List.range 640).drop 320] :=
  claim9_fanout 0 (List.range 640) [c9wit, c9wit] c9wit
    (by rw [List.length_range]) rfl (by decide)

-- ---------------------------------------------------------------------
-- Throttle arithmetic at sample rate 8000
-- ---------------------------------------------------------------------

theorem audioAdj_8000 (c : Client) (h8 : c.sampleRate = 8000) :
    audioTimeSentAdjusted c = (c.totalBytesSent : ℚ) * 1000 / 16000 := by
  rw [audioTimeSentAdjusted, h8, SPEED_MULTIPLIER]
  norm_num [bytesPerSecond]
  ring

theorem throttle8000_iff (tb e : Nat) :
    ((tb : ℚ) * 1000 / 16000 > (e : ℚ) + (MAX_BUFFER_AHEAD_MS : ℚ)) ↔
      32000 + 16 * e < tb := by
  rw [gt_iff_lt, lt_div_iff (by norm_num : (0:ℚ) < 16000)]
  rw [show ((MAX_BUFFER_AHEAD_MS : Nat) : ℚ) = 2000 from by norm_num [MAX_BUFFER_AHEAD_MS]]
  constructor
  · intro hlt
    by_contra hcon
    push_neg at hcon
    have hcast : (tb : ℚ) ≤ 32000 + 16 * (e : ℚ) := by exact_mod_cast hcon
    linarith
  · intro hlt
    have hcast : (32000 : ℚ) + 16 * (e : ℚ) < (tb : ℚ) := by exact_mod_cast hlt
    linarith

theorem throttle_cond_8000 (c : Client) (now : Nat) (h8 : c.sampleRate = 8000) :
    (audioTimeSentAdjusted c > ((now - c.startTime : Nat) : ℚ) + (MAX_BUFFER_AHEAD_MS : ℚ)) ↔
      32000 + 16 * (now - c.startTime) < c.totalBytesSent := by
  rw [audioAdj_8000 c h8]
  exact throttle8000_iff c.totalBytesSent (now - c.startTime)

-- ---------------------------------------------------------------------
-- C3: cold start with 49 vs 51 queued chunks
-- ---------------------------------------------------------------------

theorem processQueue_burst8000_51 (now : Nat) (c : Client)
    (hd : c.destroyed = false) (hc : c.isConnected = true) (hs : c.startTime = 0)
    (h8 : c.sampleRate = 8000) (hlen : c.audioQueue.length = 51)
    (hall : ∀ ch ∈ c.audioQueue, ch.length = 320)
    (htb : c.totalBytesSent ≤ 16000) :
    processQueue now c =
      ({c with isThrottling := true, audioQueue := [], startTime := now,
               totalBytesSent := c.totalBytesSent + 16320},
        c.audioQueue.map encodeFrame, Sched.immediate) := by
  obtain ⟨sr, q, st, tb, thr, conn, dest⟩ := c
  simp only at hd hc hs h8 hlen hall htb
  subst hd hc hs h8
  have hbp : burstPackets 8000 = 50 := by decide
  obtain ⟨ch1, hdrop⟩ : ∃ ch1, q.drop 50 = [ch1] := by
    apply List.length_eq_one.mp
    rw [List.length_drop, hlen]
  have hq5051 : q = q.take 50 ++ [ch1] := by
    have h := List.take_append_drop 50 q
    rw [hdrop] at h
    exact h.symm
  have hch1 : ch1.length = 320 := by
    apply hall
    rw [hq5051]
    exact List.mem_append_right _ (List.mem_cons_self _ _)
  have hsum : ((q.take 50).map List.length).sum = 16000 := by
    have hforall : ∀ x ∈ (q.take 50).map List.length, x = 320 := by
      intro x hx
      rw [List.mem_map] at hx
      obtain ⟨ch, hch, hxe⟩ := hx
      rw [← hxe]
      exact hall ch (List.take_subset 50 q hch)
    rw [List.eq_replicate_of_mem hforall, List.sum_replicate, smul_eq_mul,
      List.length_map, List.length_take, hlen]
    decide
  rw [processQueue_burst now _ rfl rfl rfl
    (by show burstPackets 8000 < q.length; rw [hbp]; omega)]
  rw [hbp]
  rw [hsum]
  have hcond : ¬(audioTimeSentAdjusted
      (Client.mk 8000 (q.drop 50) now (tb + 16000) true true false) >
      ((now - (Client.mk 8000 (q.drop 50) now (tb + 16000) true true false).startTime : Nat) : ℚ) +
        (MAX_BUFFER_AHEAD_MS : ℚ)) := by
    rw [throttle_cond_8000 _ now rfl]
    show ¬(32000 + 16 * (now - now) < tb + 16000)
    omega
  rw [steadyStep_send now _ _ ch1 [] hcond (by rw [hdrop]) rfl]
  refine congrArg₂ Prod.mk ?_ (congrArg₂ Prod.mk ?_ rfl)
  · simp only [Client.mk.injEq, hch1, and_true, true_and]
  · conv_rhs => rw [hq5051]
    rw [List.map_append]
    rfl

/-- Concrete cold-start streaming session with 51 queued 320-byte chunks. -/
def c3cex : Client := Client.mk 8000 (List.replicate 51 (List.replicate 320 1)) 0 0 false true false

/-- C3 counterexample: with 51 chunks queued at cold start, the drain
cycle sends 51 frames, not exactly 50 — after the 50-chunk burst the same
invocation falls through to the steady-state branch and dequeues one more
chunk. -/
theorem claim3_cex :
    ((processQueue 7 c3cex).2.1).length = 51 ∧
    ((processQueue 7 c3cex).2.1).length ≠ 50 := by
  have h := processQueue_burst8000_51 7 c3cex rfl rfl rfl rfl (by decide)
    (by
      intro ch hch
      have hmem : ch ∈ List.replicate 51 (List.replicate 320 1) := hch
      rw [List.eq_of_mem_replicate hmem]
      exact List.length_replicate 320 1)
    (by decide)
  rw [h]
  constructor
  · show (c3cex.audioQueue.map encodeFrame).length = 51
    rw [List.length_map]
    decide
  · show (c3cex.audioQueue.map encodeFrame).length ≠ 50
    rw [List.length_map]
    decide

/-- C3 as amended: at cold start with `burstPackets = 50`, a queue of at
most 50 chunks (e.g. 49) triggers no dequeue and leaves `startTime`
unset; a queue of exactly 51 chunks triggers the 50-chunk burst, sets
`startTime = now`, and the same invocation then continues into the
steady-state branch and dequeues one further chunk, so that invocation
sends 51 frames in all and reschedules immediately. -/
theorem claim3_amended (now : Nat) (c49 c51 : Client)
    (hd49 : c49.destroyed = false) (hc49 : c49.isConnected = true)
    (hs49 : c49.startTime = 0) (h849 : c49.sampleRate = 8000)
    (hq49 : c49.audioQueue ≠ []) (hlen49 : c49.audioQueue.length ≤ 50)
    (hd51 : c51.destroyed = false) (hc51 : c51.isConnected = true)
    (hs51 : c51.startTime = 0) (h851 : c51.sampleRate = 8000)
    (hlen51 : c51.audioQueue.length = 51)
    (hall51 : ∀ ch ∈ c51.audioQueue, ch.length = 320)
    (htb51 : c51.totalBytesSent ≤ 16000) :
    processQueue now c49 = ({c49 with isThrottling := false}, [], Sched.idle) ∧
    processQueue now c51 =
      ({c51 with isThrottling := true, audioQueue := [], startTime := now,
                 totalBytesSent := c51.totalBytesSent + 16320},
        c51.audioQueue.map encodeFrame, Sched.immediate) := by
  constructor
  · apply processQueue_cold_wait now c49 hd49 hc49 hq49 hs49
    rw [h849]
    show c49.audioQueue.length ≤ 50
    exact hlen49
  · exact processQueue_burst8000_51 now c51 hd51 hc51 hs51 h851 hlen51 hall51 htb51

/-- Concrete cold-start streaming session with 49 queued chunks. -/
def c49wit : Client := Client.mk 8000 (List.replicate 49 (List.replicate 320 2)) 0 0 false true false

/-- C3 witness at concrete sessions holding 49 and 51 chunks. -/
theorem claim3_witness :
    (processQueue 7 c49wit = ({c49wit with isThrottling := false}, [], Sched.idle) ∧
    processQueue 7 c3cex =
      ({c3cex with isThrottling := true, audioQueue := [], startTime := 7,
                   totalBytesSent := c3cex.totalBytesSent + 16320},
        c3cex.audioQueue.map encodeFrame, Sched.immediate)) :=
  claim3_amended 7 c49wit c3cex rfl rfl rfl rfl
    (by decide) (by decide) rfl rfl rfl rfl (by decide)
    (by
      intro ch hch
      have hmem : ch ∈ List.replicate 51 (List.replicate 320 1) := hch
      rw [List.eq_of_mem_replicate hmem]
      exact List.length_replicate 320 1)
    (by decide)

-- ---------------------------------------------------------------------
-- C10: per-send byte accounting
-- ---------------------------------------------------------------------

theorem steadyStep_sent (now : Nat) (c : Client) (sent0 : List (List Nat))
    (hd : c.destroyed = false) :
    ∃ extra : List Chunk,
      (∀ ch ∈ extra, ch ∈ c.audioQueue) ∧
      (steadyStep now c sent0).2.1 = sent0 ++ extra.map encodeFrame ∧
      ((steadyStep now c sent0).1).totalBytesSent =
        c.totalBytesSent + (extra.map List.length).sum := by
  by_cases hth : audioTimeSentAdjusted c >
      ((now - c.startTime : Nat) : ℚ) + (MAX_BUFFER_AHEAD_MS : ℚ)
  · refine ⟨[], by simp, ?_, ?_⟩ <;> rw [steadyStep_throttle now c sent0 hth] <;> simp
  · cases hq : c.audioQueue with
    | nil =>
      refine ⟨[], by simp, ?_, ?_⟩ <;> rw [steadyStep_emptyQ now c sent0 hth hq] <;> simp
    | cons ch rest =>
      refine ⟨[ch], ?_, ?_, ?_⟩
      · intro x hx
        rw [List.mem_singleton] at hx
        rw [hx]
        exact List.mem_cons_self _ _
      · rw [steadyStep_send now c sent0 ch rest hth hq hd]
        simp
      · rw [steadyStep_send now c sent0 ch rest hth hq hd]
        simp

theorem processQueue_sent (now : Nat) (c : Client) :
    ∃ sent : List Chunk,
      (∀ ch ∈ sent, ch ∈ c.audioQueue) ∧
      (processQueue now c).2.1 = sent.map encodeFrame ∧
      ((processQueue now c).1).totalBytesSent =
        c.totalBytesSent + (sent.map List.length).sum := by
  by_cases hd : c.destroyed = true
  · refine ⟨[], by simp, ?_, ?_⟩ <;> rw [processQueue_destroyed now c hd] <;> simp
  · have hd' : c.destroyed = false := by simpa using hd
    by_cases hc : c.isConnected = false
    · refine ⟨[], by simp, ?_, ?_⟩ <;> rw [processQueue_notConnected now c hd' hc] <;> simp
    · have hc' : c.isConnected = true := by simpa using hc
      by_cases hq : c.audioQueue = []
      · refine ⟨[], by simp, ?_, ?_⟩ <;> rw [processQueue_emptyQueue now c hd' hc' hq] <;> simp
      · by_cases hs : c.startTime = 0
        · by_cases hlen : c.audioQueue.length ≤ burstPackets c.sampleRate
          · refine ⟨[], by simp, ?_, ?_⟩ <;>
              rw [processQueue_cold_wait now c hd' hc' hq hs hlen] <;> simp
          · have hlen' : burstPackets c.sampleRate < c.audioQueue.length := by omega
            rw [processQueue_burst now c hd' hc' hs hlen']
            obtain ⟨extra, hmem, hframes, htb⟩ :=
              steadyStep_sent now
                {c with isThrottling := true,
                        audioQueue := c.audioQueue.drop (burstPackets c.sampleRate),
                        startTime := now,
                        totalBytesSent := c.totalBytesSent +
                          ((c.audioQueue.take (burstPackets c.sampleRate)).map List.length).sum}
                ((c.audioQueue.take (burstPackets c.sampleRate)).map encodeFrame) hd'
            refine ⟨c.audioQueue.take (burstPackets c.sampleRate) ++ extra, ?_, ?_, ?_⟩
            · intro x hx
              rw [List.mem_append] at hx
              cases hx with
              | inl h1 => exact List.take_subset _ _ h1
              | inr h2 => exact List.drop_subset _ _ (hmem x h2)
            · rw [hframes, List.map_append]
            · rw [htb]
              show c.totalBytesSent +
                  ((c.audioQueue.take (burstPackets c.sampleRate)).map List.length).sum +
                  (extra.map List.length).sum = _
              rw [List.map_append, List.sum_append, Nat.add_assoc]
        · rw [processQueue_steady now c hd' hc' hq hs]
          obtain ⟨extra, hmem, hframes, htb⟩ :=
            steadyStep_sent now {c with isThrottling := true} [] hd'
          refine ⟨extra, hmem, ?_, ?_⟩
          · rw [hframes, List.nil_append]
          · rw [htb]

/-- C10: a successful send of a 320-byte chunk writes the 336-byte frame
(4-byte header, 12-byte padding, payload) but adds only the 320 payload
bytes to `totalBytesSent`; consequently every frame a drain cycle writes
is 336 bytes, and when every queued chunk is `CHUNK_SIZE` bytes the
counter stays a multiple of `CHUNK_SIZE` across drain cycles. -/
theorem claim10_accounting (now : Nat) (c : Client) (chunk : Chunk)
    (hd : c.destroyed = false) (hlen : chunk.length = CHUNK_SIZE)
    (hall : ∀ ch ∈ c.audioQueue, ch.length = CHUNK_SIZE)
    (htb : c.totalBytesSent % CHUNK_SIZE = 0) :
    (sendRtspFrame c chunk).2 = [encodeFrame chunk] ∧
    (encodeFrame chunk).length = 336 ∧
    ((sendRtspFrame c chunk).1).totalBytesSent = c.totalBytesSent + CHUNK_SIZE ∧
    (∀ f ∈ (processQueue now c).2.1, f.length = 336) ∧
    ((processQueue now c).1).totalBytesSent % CHUNK_SIZE = 0 := by
  obtain ⟨sent, hmem, hframes, htb'⟩ := processQueue_sent now c
  have hsent320 : ∀ ch ∈ sent, ch.length = CHUNK_SIZE := fun ch hch => hall ch (hmem ch hch)
  refine ⟨?_, ?_, ?_, ?_, ?_⟩
  · rw [sendRtspFrame, if_neg (by rw [hd]; exact Bool.false_ne_true)]
  · rw [encodeFrame_length, hlen]
    rfl
  · rw [sendRtspFrame, if_neg (by rw [hd]; exact Bool.false_ne_true), hlen]
  · intro f hf
    rw [hframes, List.mem_map] at hf
    obtain ⟨ch, hch, hfe⟩ := hf
    rw [← hfe, encodeFrame_length, hsent320 ch hch]
    rfl
  · rw [htb']
    have hsum : (sent.map List.length).sum = CHUNK_SIZE * sent.length := by
      have hforall : ∀ x ∈ sent.map List.length, x = CHUNK_SIZE := by
        intro x hx
        rw [List.mem_map] at hx
        obtain ⟨ch, hch, hxe⟩ := hx
        rw [← hxe]
        exact hsent320 ch hch
      rw [List.eq_replicate_of_mem hforall, List.sum_replicate, smul_eq_mul,
        List.length_map]
      exact Nat.mul_comm _ _
    rw [hsum, Nat.add_mul_mod_self_left]
    exact htb

/-- Concrete streaming session for the C10 witness: 640 bytes already
accounted, one 320-byte chunk queued. -/
def c10wit : Client := Client.mk 8000 [List.replicate 320 3] 5 640 false true false

/-- C10 witness at a concrete session and chunk. -/
theorem claim10_witness :
    (sendRtspFrame c10wit (List.replicate 320 4)).2 = [encodeFrame (List.replicate 320 4)] ∧
    (encodeFrame (List.replicate 320 4)).length = 336 ∧
    ((sendRtspFrame c10wit (List.replicate 320 4)).1).totalBytesSent =
      c10wit.totalBytesSent + CHUNK_SIZE ∧
    (∀ f ∈ (processQueue 9 c10wit).2.1, f.length = 336) ∧
    ((processQueue 9 c10wit).1).totalBytesSent % CHUNK_SIZE = 0 :=
  claim10_accounting 9 c10wit (List.replicate 320 4) rfl
    (by rw [List.length_replicate]; rfl)
    (by
      intro ch hch
      have hmem : ch ∈ [List.replicate 320 3] := hch
      rw [List.mem_singleton] at hmem
      rw [hmem, List.length_replicate]
      rfl)
    (by decide)

-- ---------------------------------------------------------------------
-- C1: feeding 100 chunks at rate 8000 and draining at a frozen clock
-- ---------------------------------------------------------------------

theorem processQueue_steady_send8000 (now tb : Nat) (ch : Chunk) (rest : List Chunk)
    (hnow : now ≠ 0) (htb : tb ≤ 32000) :
    processQueue now (Client.mk 8000 (ch :: rest) now tb true true false) =
      (Client.mk 8000 rest now (tb + ch.length) true true false,
        [encodeFrame ch], Sched.immediate) := by
  have hcond : ¬(audioTimeSentAdjusted (Client.mk 8000 (ch :: rest) now tb true true false) >
      ((now - (Client.mk 8000 (ch :: rest) now tb true true false).startTime : Nat) : ℚ) +
      (MAX_BUFFER_AHEAD_MS : ℚ)) := by
    rw [throttle_cond_8000 _ now rfl]
    show ¬(32000 + 16 * (now - now) < tb)
    omega
  rw [processQueue_steady now _ rfl rfl (by simp) hnow]
  rw [steadyStep_send now _ [] ch rest (by exact hcond) rfl rfl]
  rfl

theorem drainLoop_steady (q : List Chunk) : ∀ (fuel now tb : Nat),
    (∀ ch ∈ q, ch.length = 320) → tb + 320 * q.length ≤ 32000 → now ≠ 0 →
    q.length + 1 ≤ fuel →
    drainLoop fuel now (Client.mk 8000 q now tb true true false) =
      (Client.mk 8000 [] now (tb + 320 * q.length) false true false, q.map encodeFrame) := by
  induction q with
  | nil =>
    intro fuel now tb hall htb hnow hfuel
    cases fuel with
    | zero => omega
    | succ f =>
      simp only [drainLoop]
      rw [processQueue_emptyQueue now _ rfl rfl rfl]
      simp
  | cons ch rest ih =>
    intro fuel now tb hall htb hnow hfuel
    cases fuel with
    | zero =>
      simp only [List.length_cons] at hfuel
      omega
    | succ f =>
      have hch : ch.length = 320 := hall ch (List.mem_cons_self _ _)
      simp only [List.length_cons] at htb hfuel
      simp only [drainLoop]
      rw [processQueue_steady_send8000 now tb ch rest hnow (by omega)]
      dsimp only
      rw [hch]
      rw [ih f now (tb + 320) (fun x hx => hall x (List.mem_cons_of_mem _ hx))
        (by omega) hnow (by omega)]
      dsimp only
      refine congrArg₂ Prod.mk ?_ ?_
      · simp only [Client.mk.injEq, and_true, true_and, List.length_cons]
        ring
      · simp

theorem enqueue_cold_small (now : Nat) (c : Client) (ch : Chunk)
    (hd : c.destroyed = false) (hc : c.isConnected = true) (ht : c.isThrottling = false)
    (hs : c.startTime = 0)
    (hlen : c.audioQueue.length + 1 ≤ burstPackets c.sampleRate) :
    enqueue now c ch = ({c with audioQueue := c.audioQueue ++ [ch]}, [], Sched.idle) := by
  obtain ⟨sr, q, st, tb, thr, conn, dest⟩ := c
  simp only at hd hc ht hs hlen
  subst hd hc ht hs
  rw [enqueue_connected_idle now _ ch rfl rfl]
  rw [processQueue_cold_wait now _ rfl rfl (by simp) rfl (by simpa using hlen)]

theorem feed_cold (now : Nat) (chunks : List Chunk) : ∀ c : Client,
    c.destroyed = false → c.isConnected = true → c.isThrottling = false →
    c.startTime = 0 →
    c.audioQueue.length + chunks.length ≤ burstPackets c.sampleRate →
    feed now c chunks = ({c with audioQueue := c.audioQueue ++ chunks}, []) := by
  induction chunks with
  | nil =>
    intro c _ _ _ _ _
    simp [feed]
  | cons ch rest ih =>
    intro c hd hc ht hs hlen
    simp only [List.length_cons] at hlen
    simp only [feed]
    rw [enqueue_cold_small now c ch hd hc ht hs (by omega)]
    rw [ih {c with audioQueue := c.audioQueue ++ [ch]} hd hc ht hs
      (by
        show (c.audioQueue ++ [ch]).length + rest.length ≤ burstPackets c.sampleRate
        simp only [List.length_append, List.length_cons, List.length_nil]
        omega)]
    simp [List.append_assoc]

theorem feed_throttling (now : Nat) (chunks : List Chunk) : ∀ c : Client,
    c.isConnected = true → c.isThrottling = true →
    feed now c chunks = ({c with audioQueue := c.audioQueue ++ chunks}, []) := by
  induction chunks with
  | nil =>
    intro c _ _
    simp [feed]
  | cons ch rest ih =>
    intro c hc ht
    simp only [feed]
    rw [enqueue_throttling now c ch hc ht]
    rw [ih {c with audioQueue := c.audioQueue ++ [ch]} hc ht]
    simp [List.append_assoc]

theorem feed_append (now : Nat) (l1 l2 : List Chunk) : ∀ c : Client,
    feed now c (l1 ++ l2) =
      ((feed now (feed now c l1).1 l2).1,
        (feed now c l1).2 ++ (feed now (feed now c l1).1 l2).2) := by
  induction l1 with
  | nil =>
    intro c
    simp [feed]
  | cons ch rest ih =>
    intro c
    simp only [List.cons_append, feed, List.append_eq]
    rw [ih]
    simp [List.append_assoc]

/-- Fresh streaming session (connected, nothing sent) at sample rate 8000. -/
def c1start : Client := Client.mk 8000 [] 0 0 false true false

/-- C1 counterexample: the code's burst size at sample rate 8000 is
`floor(8000 * 2 / 320) = 50` (one second of audio), not the
`floor(8000 * BURST_SECONDS * 2 / 320) = 100` chunks (two seconds) the
claim derives with `BURST_SECONDS = 2`. -/
theorem claim1_cex :
    burstPackets 8000 = 50 ∧
    8000 * 2 * 2 / CHUNK_SIZE = 100 ∧
    burstPackets 8000 ≠ 8000 * 2 * 2 / CHUNK_SIZE := by
  decide

/-- C1 as amended: the burst size is `floor(sampleRate * 2 / CHUNK_SIZE)`
(= 50 chunks, one second, at 8000 Hz).  Feeding exactly 100 chunks to a
fresh streaming session and then pausing input still sends all 100 chunks
immediately and nothing further: the 51st enqueue triggers the 50-chunk
burst plus one steady-state send, and the pending immediate reschedules
drain the remaining 49 chunks without throttling (2000 ms of audio does
not exceed the 2000 ms buffer-ahead ceiling), after which the Pacer goes
idle with an empty queue until more data arrives. -/
theorem claim1_amended (t : Nat) (chunks : List Chunk)
    (hlen : chunks.length = 100) (hall : ∀ ch ∈ chunks, ch.length = 320)
    (ht : t ≠ 0) :
    burstPackets 8000 = 50 ∧
    (feed t c1start chunks).2 ++ (drainLoop 200 t (feed t c1start chunks).1).2 =
      chunks.map encodeFrame ∧
    (drainLoop 200 t (feed t c1start chunks).1).1 =
      Client.mk 8000 [] t 32000 false true false ∧
    (processQueue t (drainLoop 200 t (feed t c1start chunks).1).1).2.1 = [] ∧
    (processQueue t (drainLoop 200 t (feed t c1start chunks).1).1).2.2 = Sched.idle := by
  have hbp : burstPackets 8000 = 50 := by decide
  have hne : chunks.drop 50 ≠ [] := by
    intro hnil
    have hl := congrArg List.length hnil
    rw [List.length_drop, hlen] at hl
    simp at hl
  obtain ⟨ch51, rest49, hb⟩ := List.exists_cons_of_ne_nil hne
  have hchunks : chunks = chunks.take 50 ++ (ch51 :: rest49) := by
    have h := List.take_append_drop 50 chunks
    rw [hb] at h
    exact h.symm
  have htake : (chunks.take 50).length = 50 := by
    rw [List.length_take]
    omega
  have hrest : rest49.length = 49 := by
    have h := congrArg List.length hchunks
    rw [hlen, List.length_append, htake, List.length_cons] at h
    omega
  have h51 : ch51 ∈ chunks := by
    rw [hchunks]
    exact List.mem_append_right _ (List.mem_cons_self _ _)
  have hallR : ∀ ch ∈ rest49, ch.length = 320 := by
    intro ch h
    apply hall
    rw [hchunks]
    exact List.mem_append_right _ (List.mem_cons_of_mem _ h)
  have hfA : feed t c1start (chunks.take 50) =
      (Client.mk 8000 (chunks.take 50) 0 0 false true false, []) := by
    rw [feed_cold t (chunks.take 50) c1start rfl rfl rfl rfl
      (by
        show ([] : List Chunk).length + (chunks.take 50).length ≤ burstPackets 8000
        rw [htake]
        decide)]
    rfl
  have henq : enqueue t (Client.mk 8000 (chunks.take 50) 0 0 false true false) ch51 =
      (Client.mk 8000 [] t 16320 true true false,
        (chunks.take 50 ++ [ch51]).map encodeFrame, Sched.immediate) := by
    rw [enqueue_connected_idle t _ ch51 rfl rfl]
    rw [processQueue_burst8000_51 t _ rfl rfl rfl rfl
      (by
        show (chunks.take 50 ++ [ch51]).length = 51
        rw [List.length_append, htake]
        rfl)
      (by
        intro x hx
        rcases List.mem_append.mp hx with h1 | h2
        · exact hall x (List.take_subset _ _ h1)
        · rw [List.mem_singleton] at h2
          rw [h2]
          exact hall ch51 h51)
      (by show (0:Nat) ≤ 16000; decide)]
  have hfB : feed t (Client.mk 8000 (chunks.take 50) 0 0 false true false) (ch51 :: rest49) =
      (Client.mk 8000 rest49 t 16320 true true false,
        (chunks.take 50 ++ [ch51]).map encodeFrame) := by
    simp only [feed]
    rw [henq]
    rw [feed_throttling t rest49 (Client.mk 8000 [] t 16320 true true false) rfl rfl]
    simp
  have hfeed : feed t c1start chunks =
      (Client.mk 8000 rest49 t 16320 true true false,
        (chunks.take 50 ++ [ch51]).map encodeFrame) := by
    conv_lhs => rw [hchunks]
    rw [feed_append t (chunks.take 50) (ch51 :: rest49) c1start, hfA]
    dsimp only
    rw [hfB]
    simp
  have hdrain : drainLoop 200 t (Client.mk 8000 rest49 t 16320 true true false) =
      (Client.mk 8000 [] t 32000 false true false, rest49.map encodeFrame) := by
    rw [drainLoop_steady rest49 200 t 16320 hallR
      (by rw [hrest]) ht (by rw [hrest]; decide)]
    rw [hrest]
  refine ⟨hbp, ?_, ?_, ?_, ?_⟩
  · rw [hfeed]
    dsimp only
    rw [hdrain]
    dsimp only
    rw [← List.map_append]
    conv_rhs => rw [hchunks]
    congr 1
    simp [List.append_assoc]
  · rw [hfeed]
    dsimp only
    rw [hdrain]
  · rw [hfeed]
    dsimp only
    rw [hdrain]
    dsimp only
    rw [processQueue_emptyQueue t _ rfl rfl rfl]
  · rw [hfeed]
    dsimp only
    rw [hdrain]
    dsimp only
    rw [processQueue_emptyQueue t _ rfl rfl rfl]

/-- C1 witness: 100 all-zero 320-byte chunks fed at frozen clock 5. -/
theorem claim1_witness :
    burstPackets 8000 = 50 ∧
    (feed 5 c1start (List.replicate 100 (List.replicate 320 0))).2 ++
        (drainLoop 200 5 (feed 5 c1start (List.replicate 100 (List.replicate 320 0))).1).2 =
      (List.replicate 100 (List.replicate 320 0)).map encodeFrame ∧
    (drainLoop 200 5 (feed 5 c1start (List.replicate 100 (List.replicate 320 0))).1).1 =
      Client.mk 8000 [] 5 32000 false true false ∧
    (processQueue 5
        (drainLoop 200 5 (feed 5 c1start (List.replicate 100 (List.replicate 320 0))).1).1).2.1 = [] ∧
    (processQueue 5
        (drainLoop 200 5 (feed 5 c1start (List.replicate 100 (List.replicate 320 0))).1).1).2.2 =
      Sched.idle :=
  claim1_amended 5 (List.replicate 100 (List.replicate 320 0))
    (List.length_replicate 100 _)
    (by
      intro ch hch
      have hmem : ch ∈ List.replicate 100 (List.replicate 320 0) := hch
      rw [List.eq_of_mem_replicate hmem]
      exact List.length_replicate 320 0)
    (by decide)
